import Mathlib

/-!
Verification of the ABC flow generator (`src/main.py`, function
`generate_abc_flow`) against its natural-language specification.

Shallow embedding conventions:
* Python floats are modelled as real numbers (`ℝ`) for the numeric layer
  (phase, grid coordinates, velocity field) and as exact rationals (`ℚ`)
  for the time bookkeeping that feeds the file names and the PVD index,
  where only field arithmetic (`+`, `-`, `*`, `/`) occurs.
* Python ints are modelled as `ℤ` (`N`, `n_step` may be negative).
* numpy arrays are modelled as functions from an index type to `ℝ`
  (elementwise semantics of the numpy operations used by the source).
* Side effects (directory creation, file writes, progress callbacks) are
  recorded in an explicit event trace / result record.
* A run that raises a Python exception is modelled by an `Except.error`
  outcome carrying the exception name; effects performed before the raise
  remain visible in the result record.
-/

namespace ABCFlow

/-- One observable event of a run of `generate_abc_flow`, in program order:
a progress-callback invocation, a per-step VTK file write (`gridToVTK`),
or the final PVD index write. -/
inductive Event
  | progress (done : ℕ) (total : ℤ)
  | write (path : String)
  | pvd (path : String)
deriving DecidableEq, Repr

/-- The observable result of a call to `generate_abc_flow`: whether the
output directory got created (`os.makedirs`), the ordered event trace, the
accumulated `vtr_names` and `times` lists, the PVD index path and its
lines, and the outcome (normal return or raised exception). -/
structure GenResult where
  dirCreated : Bool
  events : List Event
  vtrNames : List String
  times : List ℚ
  pvdName : Option String
  pvdLines : List String
  outcome : Except String Unit

/-- The six decimal digits of `m % 10^6`, most significant first: the
fractional part of Python's `f"{t:.6f}"` formatting. -/
def frac6 (m : ℕ) : List Char :=
  [Nat.digitChar (m / 100000 % 10), Nat.digitChar (m / 10000 % 10),
   Nat.digitChar (m / 1000 % 10), Nat.digitChar (m / 100 % 10),
   Nat.digitChar (m / 10 % 10), Nat.digitChar (m % 10)]

/-- Python's `f"{k:04d}"`: decimal digits of `k`, left-padded with zeros
to at least four characters. -/
def fmt04 (k : ℕ) : String :=
  let s := Nat.repr k
  String.mk (List.replicate (4 - s.length) '0') ++ s

/-- Model of Python's fixed-point formatting `f"{t:.6f}"` on the exact
rational value: round `t·10^6` to an integer and render sign, integer
part, a dot, and exactly six fractional digits. -/
def fmt6 (q : ℚ) : String :=
  let n : ℤ := round (q * 1000000)
  let a : ℕ := n.natAbs
  (if n < 0 then "-" else "") ++ Nat.repr (a / 1000000) ++ "." ++ String.mk (frac6 (a % 1000000))

/-- Number of characters after the last `.` of a string. -/
def decimalsAfterDot (s : String) : ℕ :=
  (s.data.reverse.takeWhile fun c => c ≠ '.').length

/-- The per-step base file name `f"{basename}_{k:04d}"` of `main.py`. -/
def stepName (basename : String) (k : ℕ) : String :=
  basename ++ "_" ++ fmt04 k

/-- One `DataSet` line of the PVD index, as written by `main.py`. -/
def datasetLine (t : ℚ) (name : String) : String :=
  "    <DataSet timestep=\"" ++ fmt6 t ++ "\" group=\"\" part=\"0\" file=\"" ++ name ++ "\"/>"

/-- The full line list of the PVD index file written by `main.py`:
header, one `DataSet` line per `zip(vtr_names, times)` pair, footer. -/
def pvdDoc (names : List String) (times : List ℚ) : List String :=
  ["<?xml version=\"1.0\"?>",
   "<VTKFile type=\"Collection\" version=\"0.1\" byte_order=\"LittleEndian\">",
   "  <Collection>"]
  ++ ((names.zip times).map fun p => datasetLine p.2 p.1)
  ++ ["  </Collection>", "</VTKFile>"]

/-- Bookkeeping model of `generate_abc_flow` (src/main.py lines 10-88).
Mirrors the source's control flow and side effects:
* line 41 `np.linspace(0.0, L, N)` raises `ValueError` for negative `N`
  (numpy validates the sample count) — before the directory is created;
* line 48 `os.makedirs(outdir, exist_ok=True)`;
* line 50 `dt = (t_end - t_start) / n_step` raises `ZeroDivisionError`
  when `n_step = 0`;
* lines 54-75: for each `k in range(n_step)`: the progress callback is
  invoked with `(k+1, n_step)` first, then `gridToVTK` writes
  `os.path.join(outdir, f"{basename}_{k:04d}")` + `.vtr`, and
  `vtr_names` / `times` accumulate `f"{basename}_{k:04d}.vtr"` and
  `t_start + k*dt`;
* lines 77-86: the PVD index is written last.
The numeric payload of each write (the velocity field at `phi` of the
step time) lives in the `ℝ` layer below (`phi`, `fieldGen`); it does not
influence control flow, names or times, so it is kept out of this record.
The coefficient and phase-term parameters are threaded through untouched,
exactly as the source never branches on them. -/
def generate_abc_flow (N : ℤ) (A B C : ℝ)
    (epsilons omegas betas a_list : List ℝ)
    (t_start t_end : ℚ) (n_step : ℤ)
    (outdir basename : String) (hasCallback : Bool) : GenResult :=
  if N < 0 then
    { dirCreated := false, events := [], vtrNames := [], times := [],
      pvdName := none, pvdLines := [],
      outcome := .error "ValueError: Number of samples must be non-negative" }
  else if n_step = 0 then
    { dirCreated := true, events := [], vtrNames := [], times := [],
      pvdName := none, pvdLines := [],
      outcome := .error "ZeroDivisionError: float division by zero" }
  else
    let dt : ℚ := (t_end - t_start) / (n_step : ℚ)
    let ks := List.range n_step.toNat
    let names := ks.map fun k => stepName basename k ++ ".vtr"
    let times := ks.map fun (k : ℕ) => t_start + (k : ℚ) * dt
    let pvdPath := outdir ++ "/" ++ basename ++ "_series.pvd"
    { dirCreated := true,
      events :=
        (ks.flatMap fun k =>
          (if hasCallback then [Event.progress (k + 1) n_step] else [])
          ++ [Event.write (outdir ++ "/" ++ stepName basename k ++ ".vtr")])
        ++ [Event.pvd pvdPath],
      vtrNames := names, times := times,
      pvdName := some pvdPath,
      pvdLines := pvdDoc names times,
      outcome := .ok () }

/-- The phase function of `main.py` (lines 33-37):
`sum(eps * np.sin(omega * t + beta) for eps, omega, beta in zip(epsilons, omegas, betas))`
plus `sum(a * t for a in a_list)`. Note `zip` truncates to the shortest
of the three sequences, exactly as Python's `zip` does. -/
noncomputable def phi (epsilons omegas betas a_list : List ℝ) (t : ℝ) : ℝ :=
  ((epsilons.zip (omegas.zip betas)).map fun p => p.1 * Real.sin (p.2.1 * t + p.2.2)).sum
  + (a_list.map fun a => a * t).sum

/-- `np.linspace(start, stop, num)` with `endpoint=True`, over exact
reals: `num` evenly spaced samples; entry `i` is
`start + i * (stop - start) / (num - 1)` when `num ≥ 2`; for `num = 1`
numpy multiplies by the whole span, yielding `[start]`; for `num = 0`
the result is empty. (Negative `num` raises `ValueError`; that branch is
modelled in `generate_abc_flow`.) -/
noncomputable def linspaceVals (start stop : ℝ) (num : ℤ) : List ℝ :=
  (List.range num.toNat).map fun (i : ℕ) =>
    if 2 ≤ num then start + (i : ℝ) * ((stop - start) / ((num : ℝ) - 1))
    else start + (i : ℝ) * (stop - start)

/-- Lines 40-45 of `main.py`: `coords = np.linspace(0.0, 2.0*np.pi, N)`
and the three axis copies `x_coords`, `y_coords`, `z_coords`. -/
noncomputable def gridAxes (N : ℤ) : List ℝ × List ℝ × List ℝ :=
  (linspaceVals 0 (2 * Real.pi) N,
   linspaceVals 0 (2 * Real.pi) N,
   linspaceVals 0 (2 * Real.pi) N)

/-- The field generator of `main.py` (lines 63-65), elementwise over
arbitrary equally-shaped meshes (numpy arrays are modelled as functions
from a common index type `ι`, so the three outputs automatically have
the shape of the input meshes):
`vx = A*(np.sin(z3d + ph) + np.cos(y3d + ph))`,
`vy = B*(np.sin(x3d + ph) + np.cos(z3d + ph))`,
`vz = C*(np.sin(y3d + ph) + np.cos(x3d + ph))`. -/
noncomputable def fieldGen {ι : Type} (A B C ph : ℝ) (X Y Z : ι → ℝ) :
    (ι → ℝ) × (ι → ℝ) × (ι → ℝ) :=
  (fun p => A * (Real.sin (Z p + ph) + Real.cos (Y p + ph)),
   fun p => B * (Real.sin (X p + ph) + Real.cos (Z p + ph)),
   fun p => C * (Real.sin (Y p + ph) + Real.cos (X p + ph)))

/-! ### Helper lemmas about the phase sums -/

lemma map_mul_sum (t : ℝ) :
    ∀ al : List ℝ, (al.map fun a => a * t).sum
      = ∑ j in Finset.range al.length, al.getD j 0 * t := by
  intro al
  induction al with
  | nil => simp
  | cons a as ih =>
      simp only [List.map_cons, List.sum_cons, List.length_cons, ih,
        Finset.sum_range_succ', List.getD_cons_succ, List.getD_cons_zero]
      ring

lemma zip3_map_sum (t : ℝ) :
    ∀ eps om be : List ℝ,
      ((eps.zip (om.zip be)).map fun p => p.1 * Real.sin (p.2.1 * t + p.2.2)).sum
        = ∑ i in Finset.range (min eps.length (min om.length be.length)),
            eps.getD i 0 * Real.sin (om.getD i 0 * t + be.getD i 0) := by
  intro eps
  induction eps with
  | nil => intro om be; simp
  | cons e es ih =>
      intro om be
      cases om with
      | nil => simp
      | cons o os =>
          cases be with
          | nil => simp
          | cons b bs =>
              simp only [List.zip_cons_cons, List.map_cons, List.sum_cons,
                List.length_cons, Nat.succ_min_succ, Finset.sum_range_succ',
                List.getD_cons_succ, List.getD_cons_zero, ih os bs]
              ring

/-- `phi` computed in closed form: the sinusoidal sum ranges over the
first `min` of the three term-list lengths (silent `zip` truncation),
the linear sum over all of `a_list`. -/
lemma phi_eq_sum (eps om be al : List ℝ) (t : ℝ) :
    phi eps om be al t
      = (∑ i in Finset.range (min eps.length (min om.length be.length)),
          eps.getD i 0 * Real.sin (om.getD i 0 * t + be.getD i 0))
        + ∑ j in Finset.range al.length, al.getD j 0 * t := by
  unfold phi
  rw [zip3_map_sum, map_mul_sum]

/-! ### Helper lemmas about the grid -/

lemma linspaceVals_getElem? (start stop : ℝ) (num : ℤ) (h2 : 2 ≤ num)
    (i : ℕ) (hi : i < num.toNat) :
    (linspaceVals start stop num)[i]?
      = some (start + (i : ℝ) * ((stop - start) / ((num : ℝ) - 1))) := by
  unfold linspaceVals
  rw [List.getElem?_map, List.getElem?_range hi, Option.map_some', if_pos h2]

lemma natCast_toNat_real (N : ℤ) (h0 : 0 ≤ N) : ((N.toNat : ℝ)) = (N : ℝ) := by
  exact_mod_cast congrArg (fun z : ℤ => (z : ℝ)) (Int.toNat_of_nonneg h0)

/-! ### Claims about the numeric components -/

/-- C1: for all coefficients `A`, `B`, `C`, every scalar phase `ph` and
every triple of equally-shaped meshes `X`, `Y`, `Z` (functions on a
common index type, so the outputs share the meshes' shape), the field
generator returns
`vx = A*(sin(Z+ph) + cos(Y+ph))`, `vy = B*(sin(X+ph) + cos(Z+ph))`,
`vz = C*(sin(Y+ph) + cos(X+ph))` pointwise. -/
theorem fieldGen_formula {ι : Type} (A B C ph : ℝ) (X Y Z : ι → ℝ) (p : ι) :
    (fieldGen A B C ph X Y Z).1 p = A * (Real.sin (Z p + ph) + Real.cos (Y p + ph))
    ∧ (fieldGen A B C ph X Y Z).2.1 p = B * (Real.sin (X p + ph) + Real.cos (Z p + ph))
    ∧ (fieldGen A B C ph X Y Z).2.2 p = C * (Real.sin (Y p + ph) + Real.cos (X p + ph)) :=
  ⟨rfl, rfl, rfl⟩

/-- C2: with equally long term lists the phase evaluator returns
`Σ_i ε_i·sin(ω_i·t + β_i) + Σ_j a_j·t`, and with all term lists empty it
returns `0`, for every `t`; being a plain function of `t` and the term
lists, it is pure. -/
theorem phi_spec (eps om be al : List ℝ) (t : ℝ)
    (h1 : eps.length = om.length) (h2 : om.length = be.length) :
    phi eps om be al t
      = (∑ i in Finset.range eps.length,
          eps.getD i 0 * Real.sin (om.getD i 0 * t + be.getD i 0))
        + (∑ j in Finset.range al.length, al.getD j 0 * t)
    ∧ phi [] [] [] [] t = 0 := by
  constructor
  · rw [phi_eq_sum, h1, h2, min_self, ← h2, min_self, ← h1]
  · simp [phi]

theorem phi_spec_witness :
    (([(1:ℝ), 2].length = [(3:ℝ), 4].length ∧ [(3:ℝ), 4].length = [(5:ℝ), 6].length)
      ∧ (phi [(1:ℝ), 2] [3, 4] [5, 6] [7] 2
          = (∑ i in Finset.range ([(1:ℝ), 2].length),
              [(1:ℝ), 2].getD i 0 * Real.sin ([(3:ℝ), 4].getD i 0 * 2 + [(5:ℝ), 6].getD i 0))
            + (∑ j in Finset.range ([(7:ℝ)].length), [(7:ℝ)].getD j 0 * 2)
        ∧ phi [] [] [] [] 2 = 0)) :=
  ⟨⟨rfl, rfl⟩, phi_spec [(1:ℝ), 2] [3, 4] [5, 6] [7] 2 rfl rfl⟩

/-- C3: for every integer `N ≥ 2` the grid builder produces exactly `N`
coordinate values per axis, strictly increasing, first value `0`, last
value `2π` (exact over the reals), uniform spacing `2π/(N-1)`, and the
three axes are identical. -/
theorem grid_spec (N : ℤ) (h : 2 ≤ N) :
    (linspaceVals 0 (2 * Real.pi) N).length = N.toNat
    ∧ (linspaceVals 0 (2 * Real.pi) N)[0]? = some 0
    ∧ (linspaceVals 0 (2 * Real.pi) N)[N.toNat - 1]? = some (2 * Real.pi)
    ∧ (linspaceVals 0 (2 * Real.pi) N).Pairwise (· < ·)
    ∧ (∀ i : ℕ, i + 1 < N.toNat → ∀ a b : ℝ,
        (linspaceVals 0 (2 * Real.pi) N)[i]? = some a →
        (linspaceVals 0 (2 * Real.pi) N)[i + 1]? = some b →
        b - a = 2 * Real.pi / ((N : ℝ) - 1))
    ∧ gridAxes N = (linspaceVals 0 (2 * Real.pi) N,
        linspaceVals 0 (2 * Real.pi) N, linspaceVals 0 (2 * Real.pi) N) := by
  have h0 : (0:ℤ) ≤ N := by omega
  have hn2 : 2 ≤ N.toNat := by omega
  have hNr : (2:ℝ) ≤ (N : ℝ) := by exact_mod_cast h
  have hden : (0:ℝ) < (N : ℝ) - 1 := by linarith
  have hstep : (0:ℝ) < (2 * Real.pi - 0) / ((N : ℝ) - 1) :=
    div_pos (by have := Real.pi_pos; linarith) hden
  refine ⟨?_, ?_, ?_, ?_, ?_, rfl⟩
  · unfold linspaceVals; rw [List.length_map, List.length_range]
  · rw [linspaceVals_getElem? 0 (2 * Real.pi) N h 0 (by omega)]
    norm_num
  · rw [linspaceVals_getElem? 0 (2 * Real.pi) N h (N.toNat - 1) (by omega)]
    have hc : ((N.toNat - 1 : ℕ) : ℝ) = (N : ℝ) - 1 := by
      rw [Nat.cast_sub (by omega), natCast_toNat_real N h0, Nat.cast_one]
    rw [hc]
    rw [sub_zero, zero_add, div_eq_mul_inv, ← mul_assoc, mul_comm ((N:ℝ) - 1),
      mul_assoc, mul_inv_cancel₀ (ne_of_gt hden), mul_one]
  · unfold linspaceVals
    rw [List.pairwise_map]
    refine (List.pairwise_lt_range N.toNat).imp ?_
    intro i j hij
    rw [if_pos h, if_pos h]
    have hij' : (i : ℝ) < (j : ℝ) := by exact_mod_cast hij
    have := hstep
    nlinarith
  · intro i hi a b ha hb
    rw [linspaceVals_getElem? 0 (2 * Real.pi) N h i (by omega)] at ha
    rw [linspaceVals_getElem? 0 (2 * Real.pi) N h (i + 1) hi] at hb
    have ha' := Option.some.inj ha
    have hb' := Option.some.inj hb
    rw [← ha', ← hb']
    push_cast
    ring

/-! ### Helper lemmas about string formatting -/

lemma takeWhile_append_cons (p : Char → Bool) (x : Char) :
    ∀ (l l2 : List Char), (∀ c ∈ l, p c = true) → p x = false →
      (l ++ x :: l2).takeWhile p = l := by
  intro l l2 h1 h2
  induction l with
  | nil => simp [List.takeWhile, h2]
  | cons a as ih =>
      have ha : p a = true := h1 a (by simp)
      simp only [List.cons_append, List.takeWhile_cons, ha, if_true]
      rw [ih (fun c hc => h1 c (by simp [hc]))]

lemma digitChar_ne_dot : ∀ m : ℕ, m < 10 → Nat.digitChar m ≠ '.' := by decide

lemma frac6_ne_dot (m : ℕ) : ∀ c ∈ frac6 m, c ≠ '.' := by
  intro c hc
  unfold frac6 at hc
  simp only [List.mem_cons, List.not_mem_nil, or_false] at hc
  rcases hc with h | h | h | h | h | h <;>
    (rw [h]; exact digitChar_ne_dot _ (Nat.mod_lt _ (by norm_num)))

lemma frac6_length (m : ℕ) : (frac6 m).length = 6 := rfl

/-- Any string of the form `x ++ "." ++ mk F` with no dot in `F` has
exactly `F.length` characters after its last dot. -/
lemma decimalsAfterDot_split (x : String) (F : List Char)
    (hF : ∀ c ∈ F, c ≠ '.') :
    decimalsAfterDot (x ++ "." ++ String.mk F) = F.length := by
  unfold decimalsAfterDot
  rw [String.data_append, String.data_append]
  have hdot : ("." : String).data = ['.'] := rfl
  have hmk : (String.mk F).data = F := rfl
  rw [hdot, hmk]
  rw [List.append_assoc, List.singleton_append, List.reverse_append,
    List.reverse_cons]
  rw [List.append_assoc, List.singleton_append]
  rw [takeWhile_append_cons _ '.' F.reverse x.data.reverse
      (fun c hc => by
        have : c ∈ F := List.mem_reverse.mp hc
        simpa using hF c this)
      (by simp)]
  exact List.length_reverse F

/-- `fmt6` always renders exactly six digits after the decimal point. -/
lemma decimalsAfterDot_fmt6 (q : ℚ) : decimalsAfterDot (fmt6 q) = 6 := by
  unfold fmt6
  rw [decimalsAfterDot_split _ _ (frac6_ne_dot _), frac6_length]

/-! ### Helper lemmas about the event trace -/

lemma flatMapPair_length {α : Type} (g h : ℕ → α) :
    ∀ n : ℕ, ((List.range n).flatMap fun j => [g j, h j]).length = 2 * n := by
  intro n
  induction n with
  | zero => rfl
  | succ m ih =>
      rw [List.range_succ, List.append_bind, List.length_append, ih]
      simp [Nat.mul_succ]

lemma flatMapPair_getElem? {α : Type} (g h : ℕ → α) :
    ∀ n k : ℕ, k < n →
      ((List.range n).flatMap fun j => [g j, h j])[2 * k]? = some (g k)
      ∧ ((List.range n).flatMap fun j => [g j, h j])[2 * k + 1]? = some (h k) := by
  intro n
  induction n with
  | zero => intro k hk; omega
  | succ m ih =>
      intro k hk
      rw [List.range_succ, List.append_bind]
      have hlen := flatMapPair_length g h m
      by_cases hkm : k < m
      · constructor
        · rw [List.getElem?_append, if_pos (by omega)]
          exact (ih k hkm).1
        · rw [List.getElem?_append, if_pos (by omega)]
          exact (ih k hkm).2
      · have hk' : k = m := by omega
        subst hk'
        constructor
        · rw [List.getElem?_append, if_neg (by omega), hlen]
          have : 2 * k - 2 * k = 0 := by omega
          rw [this]
          rfl
        · rw [List.getElem?_append, if_neg (by omega), hlen]
          have : 2 * k + 1 - 2 * k = 1 := by omega
          rw [this]
          rfl

theorem grid_spec_witness :
    (2:ℤ) ≤ 3
    ∧ ((linspaceVals 0 (2 * Real.pi) 3).length = (3:ℤ).toNat
      ∧ (linspaceVals 0 (2 * Real.pi) 3)[0]? = some 0
      ∧ (linspaceVals 0 (2 * Real.pi) 3)[(3:ℤ).toNat - 1]? = some (2 * Real.pi)
      ∧ (linspaceVals 0 (2 * Real.pi) 3).Pairwise (· < ·)
      ∧ (∀ i : ℕ, i + 1 < (3:ℤ).toNat → ∀ a b : ℝ,
          (linspaceVals 0 (2 * Real.pi) 3)[i]? = some a →
          (linspaceVals 0 (2 * Real.pi) 3)[i + 1]? = some b →
          b - a = 2 * Real.pi / (((3:ℤ) : ℝ) - 1))
      ∧ gridAxes 3 = (linspaceVals 0 (2 * Real.pi) 3,
          linspaceVals 0 (2 * Real.pi) 3, linspaceVals 0 (2 * Real.pi) 3)) :=
  ⟨by decide, grid_spec 3 (by decide)⟩

/-! ### Claims about the orchestrated run -/

/-- C4: for every run with `n_step ≥ 1` (and a valid grid size), step `k`
(`0 ≤ k < n_step`) writes its artifact under the name
`{basename}_{k:04d}` plus the `.vtr` extension, and its recorded time is
`t_start + k·dt` with `dt = (t_end - t_start)/n_step`. -/
theorem step_files_spec (N : ℤ) (A B C : ℝ) (eps om be al : List ℝ)
    (t0 t1 : ℚ) (n_step : ℤ) (outdir basename : String) (cb : Bool)
    (hN : 0 ≤ N) (hs : 1 ≤ n_step) (k : ℕ) (hk : (k : ℤ) < n_step) :
    (generate_abc_flow N A B C eps om be al t0 t1 n_step outdir basename cb).vtrNames[k]?
      = some (basename ++ "_" ++ fmt04 k ++ ".vtr")
    ∧ (generate_abc_flow N A B C eps om be al t0 t1 n_step outdir basename cb).times[k]?
      = some (t0 + (k : ℚ) * ((t1 - t0) / (n_step : ℚ))) := by
  have h1 : ¬ N < 0 := not_lt.mpr hN
  have h2 : ¬ n_step = 0 := by omega
  have hk' : k < n_step.toNat := by omega
  constructor
  · simp only [generate_abc_flow, if_neg h1, if_neg h2]
    rw [List.getElem?_map, List.getElem?_range hk', Option.map_some']
    rfl
  · simp only [generate_abc_flow, if_neg h1, if_neg h2]
    rw [List.getElem?_map, List.getElem?_range hk', Option.map_some']

theorem step_files_spec_witness :
    ((0:ℤ) ≤ 4 ∧ (1:ℤ) ≤ 2 ∧ ((1:ℕ) : ℤ) < 2)
    ∧ ((generate_abc_flow 4 1 1 1 [] [] [] [1] 0 1 2 "out" "abc" false).vtrNames[1]?
        = some ("abc" ++ "_" ++ fmt04 1 ++ ".vtr")
      ∧ (generate_abc_flow 4 1 1 1 [] [] [] [1] 0 1 2 "out" "abc" false).times[1]?
        = some (0 + ((1:ℕ) : ℚ) * ((1 - 0) / ((2:ℤ) : ℚ)))) :=
  ⟨⟨by decide, by decide, by decide⟩,
    step_files_spec 4 1 1 1 [] [] [] [1] 0 1 2 "out" "abc" false
      (by decide) (by decide) 1 (by decide)⟩

/-- C5: a successful run writes exactly one index file, named
`{basename}_series.pvd` in the output directory, after all steps (it is
the last event); its lines are the XML header, one `DataSet` line per
step in step order — carrying the step's real time rendered by `fmt6`
(always exactly six digits after the decimal point) and the step's bare
artifact name (no directory prefix) — and the XML footer. -/
theorem pvd_spec (N : ℤ) (A B C : ℝ) (eps om be al : List ℝ)
    (t0 t1 : ℚ) (n_step : ℤ) (outdir basename : String) (cb : Bool)
    (hN : 0 ≤ N) (hs : 1 ≤ n_step) :
    (generate_abc_flow N A B C eps om be al t0 t1 n_step outdir basename cb).pvdName
      = some (outdir ++ "/" ++ basename ++ "_series.pvd")
    ∧ (generate_abc_flow N A B C eps om be al t0 t1 n_step outdir basename cb).pvdLines
      = (["<?xml version=\"1.0\"?>",
          "<VTKFile type=\"Collection\" version=\"0.1\" byte_order=\"LittleEndian\">",
          "  <Collection>"]
        ++ (List.range n_step.toNat).map (fun (k : ℕ) =>
            datasetLine (t0 + (k : ℚ) * ((t1 - t0) / (n_step : ℚ)))
              (stepName basename k ++ ".vtr")))
        ++ ["  </Collection>", "</VTKFile>"]
    ∧ (∀ k : ℕ, stepName basename k = basename ++ "_" ++ fmt04 k)
    ∧ (∀ q : ℚ, decimalsAfterDot (fmt6 q) = 6)
    ∧ (generate_abc_flow N A B C eps om be al t0 t1 n_step outdir basename cb).events.getLast?
      = some (Event.pvd (outdir ++ "/" ++ basename ++ "_series.pvd")) := by
  have h1 : ¬ N < 0 := not_lt.mpr hN
  have h2 : ¬ n_step = 0 := by omega
  refine ⟨?_, ?_, fun k => rfl, fun q => decimalsAfterDot_fmt6 q, ?_⟩
  · simp only [generate_abc_flow, if_neg h1, if_neg h2]
  · simp only [generate_abc_flow, if_neg h1, if_neg h2, pvdDoc]
    rw [List.zip_map', List.map_map]
    rfl
  · simp only [generate_abc_flow, if_neg h1, if_neg h2]
    simp

theorem pvd_spec_witness :
    ((0:ℤ) ≤ 4 ∧ (1:ℤ) ≤ 2)
    ∧ ((generate_abc_flow 4 1 1 1 [] [] [] [1] 0 1 2 "out" "abc" false).pvdName
        = some ("out" ++ "/" ++ "abc" ++ "_series.pvd")
      ∧ (generate_abc_flow 4 1 1 1 [] [] [] [1] 0 1 2 "out" "abc" false).pvdLines
        = (["<?xml version=\"1.0\"?>",
            "<VTKFile type=\"Collection\" version=\"0.1\" byte_order=\"LittleEndian\">",
            "  <Collection>"]
          ++ (List.range (2:ℤ).toNat).map (fun (k : ℕ) =>
              datasetLine (0 + (k : ℚ) * ((1 - 0) / ((2:ℤ) : ℚ)))
                (stepName "abc" k ++ ".vtr")))
          ++ ["  </Collection>", "</VTKFile>"]
      ∧ (∀ k : ℕ, stepName "abc" k = "abc" ++ "_" ++ fmt04 k)
      ∧ (∀ q : ℚ, decimalsAfterDot (fmt6 q) = 6)
      ∧ (generate_abc_flow 4 1 1 1 [] [] [] [1] 0 1 2 "out" "abc" false).events.getLast?
        = some (Event.pvd ("out" ++ "/" ++ "abc" ++ "_series.pvd"))) :=
  ⟨⟨by decide, by decide⟩,
    pvd_spec 4 1 1 1 [] [] [] [1] 0 1 2 "out" "abc" false (by decide) (by decide)⟩

/-- C6 (counterexample): in a run with a callback, the claim that the
progress invocation `(k+1, n_step)` happens only after step `k`'s file
write is false: with `n_step = 1` the trace puts the progress event at
index 0 and the write at index 1, so the write does not precede the
progress report. -/
theorem progress_timing_counterexample :
    (generate_abc_flow 2 1 1 1 [] [] [] [] 0 1 1 "out" "abc" true).events
      = [Event.progress 1 1, Event.write "out/abc_0000.vtr",
         Event.pvd "out/abc_series.pvd"]
    ∧ (generate_abc_flow 2 1 1 1 [] [] [] [] 0 1 1 "out" "abc" true).events.indexOf
        (Event.progress 1 1) = 0
    ∧ (generate_abc_flow 2 1 1 1 [] [] [] [] 0 1 1 "out" "abc" true).events.indexOf
        (Event.write "out/abc_0000.vtr") = 1
    ∧ ¬ (generate_abc_flow 2 1 1 1 [] [] [] [] 0 1 1 "out" "abc" true).events.indexOf
          (Event.write "out/abc_0000.vtr")
        < (generate_abc_flow 2 1 1 1 [] [] [] [] 0 1 1 "out" "abc" true).events.indexOf
          (Event.progress 1 1) := by
  decide

/-- C6 (amended): with a callback supplied, the progress invocation with
arguments `(k+1, n_step)` happens immediately *before* step `k`'s file
write (positions `2k` and `2k+1` of the trace); the run still advances
to step `k+1` only after both have happened, steps strictly in order. -/
theorem progress_order (N : ℤ) (A B C : ℝ) (eps om be al : List ℝ)
    (t0 t1 : ℚ) (n_step : ℤ) (outdir basename : String)
    (hN : 0 ≤ N) (hs : 1 ≤ n_step) (k : ℕ) (hk : (k : ℤ) < n_step) :
    (generate_abc_flow N A B C eps om be al t0 t1 n_step outdir basename true).events[2 * k]?
      = some (Event.progress (k + 1) n_step)
    ∧ (generate_abc_flow N A B C eps om be al t0 t1 n_step outdir basename true).events[2 * k + 1]?
      = some (Event.write (outdir ++ "/" ++ stepName basename k ++ ".vtr")) := by
  have h1 : ¬ N < 0 := not_lt.mpr hN
  have h2 : ¬ n_step = 0 := by omega
  have hk' : k < n_step.toNat := by omega
  constructor
  · simp only [generate_abc_flow, if_neg h1, if_neg h2, if_true, List.singleton_append]
    rw [List.getElem?_append, if_pos (by rw [flatMapPair_length]; omega)]
    exact (flatMapPair_getElem? _ _ n_step.toNat k hk').1
  · simp only [generate_abc_flow, if_neg h1, if_neg h2, if_true, List.singleton_append]
    rw [List.getElem?_append, if_pos (by rw [flatMapPair_length]; omega)]
    exact (flatMapPair_getElem? _ _ n_step.toNat k hk').2

theorem progress_order_witness :
    ((0:ℤ) ≤ 2 ∧ (1:ℤ) ≤ 2 ∧ ((1:ℕ) : ℤ) < 2)
    ∧ ((generate_abc_flow 2 1 1 1 [] [] [] [] 0 1 2 "out" "abc" true).events[2 * 1]?
        = some (Event.progress (1 + 1) 2)
      ∧ (generate_abc_flow 2 1 1 1 [] [] [] [] 0 1 2 "out" "abc" true).events[2 * 1 + 1]?
        = some (Event.write ("out" ++ "/" ++ stepName "abc" 1 ++ ".vtr"))) :=
  ⟨⟨by decide, by decide, by decide⟩,
    progress_order 2 1 1 1 [] [] [] [] 0 1 2 "out" "abc"
      (by decide) (by decide) 1 (by decide)⟩

/-- C7 (counterexample): with `N = 1 < 2` and otherwise valid parameters
the engine does not fail: it returns normally and produces its output
files, so no invalid-parameter validation of `N` exists. -/
theorem n_below_two_counterexample :
    (generate_abc_flow 1 1 1 1 [] [] [] [] 0 1 1 "out" "abc" false).outcome
      = .ok ()
    ∧ (generate_abc_flow 1 1 1 1 [] [] [] [] 0 1 1 "out" "abc" false).vtrNames
      = ["abc_0000.vtr"]
    ∧ (generate_abc_flow 1 1 1 1 [] [] [] [] 0 1 1 "out" "abc" false).pvdName
      = some "out/abc_series.pvd" :=
  ⟨rfl, by decide, rfl⟩

/-- C7 (amended): the engine itself never validates `N ≥ 2`. Only a
negative `N` fails — with the sample-count `ValueError` raised inside
the grid routine, before anything is written — while every `N ≥ 0`
(including 0 and 1) runs to completion. -/
theorem n_validation_amended (N : ℤ) (A B C : ℝ) (eps om be al : List ℝ)
    (t0 t1 : ℚ) (n_step : ℤ) (outdir basename : String) (cb : Bool)
    (hs : 1 ≤ n_step) :
    (N < 0 →
      (generate_abc_flow N A B C eps om be al t0 t1 n_step outdir basename cb).outcome
        = .error "ValueError: Number of samples must be non-negative"
      ∧ (generate_abc_flow N A B C eps om be al t0 t1 n_step outdir basename cb).vtrNames = []
      ∧ (generate_abc_flow N A B C eps om be al t0 t1 n_step outdir basename cb).events = [])
    ∧ (0 ≤ N →
      (generate_abc_flow N A B C eps om be al t0 t1 n_step outdir basename cb).outcome
        = .ok ()) := by
  constructor
  · intro h
    simp [generate_abc_flow, if_pos h]
  · intro h
    simp [generate_abc_flow, if_neg (not_lt.mpr h), if_neg (by omega : ¬ n_step = 0)]

theorem n_validation_amended_witness :
    (1:ℤ) ≤ 1
    ∧ (((-1:ℤ) < 0 →
        (generate_abc_flow (-1) 1 1 1 [] [] [] [] 0 1 1 "out" "abc" false).outcome
          = .error "ValueError: Number of samples must be non-negative"
        ∧ (generate_abc_flow (-1) 1 1 1 [] [] [] [] 0 1 1 "out" "abc" false).vtrNames = []
        ∧ (generate_abc_flow (-1) 1 1 1 [] [] [] [] 0 1 1 "out" "abc" false).events = [])
      ∧ ((0:ℤ) ≤ (-1:ℤ) →
        (generate_abc_flow (-1) 1 1 1 [] [] [] [] 0 1 1 "out" "abc" false).outcome
          = .ok ())) :=
  ⟨by decide,
    n_validation_amended (-1) 1 1 1 [] [] [] [] 0 1 1 "out" "abc" false (by decide)⟩

/-- C8 (counterexample): with mismatched term lists (`epsilons = [1]`,
`omegas = betas = []`) the engine returns normally instead of raising,
and the phase evaluator computes a phase — the `zip`-truncated sum `0`. -/
theorem mismatched_lengths_counterexample :
    (generate_abc_flow 2 1 1 1 [(1:ℝ)] [] [] [] 0 1 1 "out" "abc" false).outcome
      = .ok ()
    ∧ phi [(1:ℝ)] [] [] [] 3 = 0 :=
  ⟨rfl, by simp [phi]⟩

/-- C8 (amended): the engine performs no length validation on the
sinusoidal term lists; a run with mismatched lists completes normally,
and the phase evaluator silently truncates the sinusoidal sum to the
shortest of the three lists (the linear sum is unaffected). -/
theorem mismatched_lengths_amended (N : ℤ) (A B C : ℝ) (eps om be al : List ℝ)
    (t : ℝ) (t0 t1 : ℚ) (n_step : ℤ) (outdir basename : String) (cb : Bool)
    (hN : 0 ≤ N) (hz : n_step ≠ 0) :
    (generate_abc_flow N A B C eps om be al t0 t1 n_step outdir basename cb).outcome
      = .ok ()
    ∧ phi eps om be al t
      = (∑ i in Finset.range (min eps.length (min om.length be.length)),
          eps.getD i 0 * Real.sin (om.getD i 0 * t + be.getD i 0))
        + ∑ j in Finset.range al.length, al.getD j 0 * t := by
  constructor
  · simp only [generate_abc_flow, if_neg (not_lt.mpr hN), if_neg hz]
  · exact phi_eq_sum eps om be al t

theorem mismatched_lengths_amended_witness :
    ((0:ℤ) ≤ 2 ∧ (1:ℤ) ≠ 0)
    ∧ ((generate_abc_flow 2 1 1 1 [(1:ℝ), 2] [3] [4, 5, 6] [7] 0 1 1 "out" "abc" false).outcome
        = .ok ()
      ∧ phi [(1:ℝ), 2] [3] [4, 5, 6] [7] 2
        = (∑ i in Finset.range (min ([(1:ℝ), 2].length)
              (min ([(3:ℝ)].length) ([(4:ℝ), 5, 6].length))),
            [(1:ℝ), 2].getD i 0 * Real.sin ([(3:ℝ)].getD i 0 * 2 + [(4:ℝ), 5, 6].getD i 0))
          + ∑ j in Finset.range ([(7:ℝ)].length), [(7:ℝ)].getD j 0 * 2) :=
  ⟨⟨by decide, by decide⟩,
    mismatched_lengths_amended 2 1 1 1 [(1:ℝ), 2] [3] [4, 5, 6] [7] 2 0 1 1 "out" "abc" false
      (by decide) (by decide)⟩

/-- C9: a call with `n_step = 0` (and a valid grid size) is rejected
with an error surfaced from the `dt` division — Python's
`ZeroDivisionError`, not a silent NaN/∞ — and no per-step file is
written, no event happens, no index file is produced. -/
theorem nstep_zero_spec (N : ℤ) (A B C : ℝ) (eps om be al : List ℝ)
    (t0 t1 : ℚ) (outdir basename : String) (cb : Bool) (hN : 0 ≤ N) :
    (generate_abc_flow N A B C eps om be al t0 t1 0 outdir basename cb).outcome
      = .error "ZeroDivisionError: float division by zero"
    ∧ (generate_abc_flow N A B C eps om be al t0 t1 0 outdir basename cb).vtrNames = []
    ∧ (generate_abc_flow N A B C eps om be al t0 t1 0 outdir basename cb).events = []
    ∧ (generate_abc_flow N A B C eps om be al t0 t1 0 outdir basename cb).pvdName = none := by
  simp only [generate_abc_flow, if_neg (not_lt.mpr hN), if_pos rfl]
  exact ⟨rfl, rfl, rfl, rfl⟩

theorem nstep_zero_spec_witness :
    (0:ℤ) ≤ 4
    ∧ ((generate_abc_flow 4 1 1 1 [] [] [] [] 0 1 0 "out" "abc" false).outcome
        = .error "ZeroDivisionError: float division by zero"
      ∧ (generate_abc_flow 4 1 1 1 [] [] [] [] 0 1 0 "out" "abc" false).vtrNames = []
      ∧ (generate_abc_flow 4 1 1 1 [] [] [] [] 0 1 0 "out" "abc" false).events = []
      ∧ (generate_abc_flow 4 1 1 1 [] [] [] [] 0 1 0 "out" "abc" false).pvdName = none) :=
  ⟨by decide, nstep_zero_spec 4 1 1 1 [] [] [] [] 0 1 "out" "abc" false (by decide)⟩

/-- C10 (counterexample): a call with `N = -1` fails inside the grid
construction (line 41), *before* `os.makedirs` (line 48) runs, so it
does not leave the output directory created — refuting "for every call
the output directory is created". -/
theorem makedirs_counterexample :
    (generate_abc_flow (-1) 1 1 1 [] [] [] [] 0 1 0 "out" "abc" false).dirCreated
      = false
    ∧ (generate_abc_flow (-1) 1 1 1 [] [] [] [] 0 1 0 "out" "abc" false).outcome
      = .error "ValueError: Number of samples must be non-negative" :=
  ⟨rfl, rfl⟩

/-- C10 (amended): for every call that passes the grid construction
(`N ≥ 0`), the output directory is created before `dt` is computed and
before any step runs — in particular a call failing at the `dt`
computation (`n_step = 0`) still leaves the directory created. -/
theorem makedirs_amended (N : ℤ) (A B C : ℝ) (eps om be al : List ℝ)
    (t0 t1 : ℚ) (n_step : ℤ) (outdir basename : String) (cb : Bool)
    (hN : 0 ≤ N) :
    (generate_abc_flow N A B C eps om be al t0 t1 n_step outdir basename cb).dirCreated
      = true := by
  have h1 : ¬ N < 0 := not_lt.mpr hN
  by_cases hz : n_step = 0
  · simp only [generate_abc_flow, if_neg h1, if_pos hz]
  · simp only [generate_abc_flow, if_neg h1, if_neg hz]

theorem makedirs_amended_witness :
    (0:ℤ) ≤ 4
    ∧ (generate_abc_flow 4 1 1 1 [] [] [] [] 0 1 0 "out" "abc" false).dirCreated
      = true :=
  ⟨by decide, makedirs_amended 4 1 1 1 [] [] [] [] 0 1 0 "out" "abc" false (by decide)⟩

end ABCFlow
